import Mathlib

/-!
Shallow embedding of the rust_risc-v RV32I simulator.

The definitions below translate src/src/risc_v.rs and src/src/utils.rs:
machine 32-bit words are natural numbers kept below 2^32 by explicit
reductions mod 2^32, Rust i32 values are integers, fallible operations
(assert! / panic! / todo!) return Option, and &mut state is threaded
explicitly.  Memory is a byte function Nat → Nat; the hart is a record of
the register file, the program counter and the current-instruction scratch
word, exactly as in the Rust struct RISCV.
-/

namespace RV32

/-- Truncating cast of a natural number to a Rust i32: reduce mod 2^32 and
reinterpret the 32-bit pattern as two's complement. -/
def toI32 (n : Nat) : Int :=
  if n % 2^32 < 2^31 then ((n % 2^32 : Nat) : Int) else ((n % 2^32 : Nat) : Int) - 2^32

/-- Truncating cast of an integer to a Rust u32 (`as u32`): the value of the
low 32 bits of the two's-complement representation. -/
def wrap32 (x : Int) : Nat := (x % (2^32 : Int)).toNat

/-- Rust u32::wrapping_add. -/
def wadd (x y : Nat) : Nat := (x + y) % 2^32

/-- Rust u32::wrapping_sub. -/
def wsub (x y : Nat) : Nat := wrap32 ((x : Int) - (y : Int))

/-- Rust u32::wrapping_add_signed (u32 plus i32, wrapping). -/
def waddSigned (x : Nat) (y : Int) : Nat := wrap32 ((x : Int) + y)

/-- Arithmetic right shift of an i32 by n bits: Rust's `>>` on i32, which is
floor division by 2^n (Int `/` is Euclidean division, which agrees with floor
division for the positive divisor 2^n). -/
def ashr (x : Int) (n : Nat) : Int := x / 2^n

/-- Clearing the least significant bit of a u32: Rust's `& !1`. -/
def clearBit0 (t : Nat) : Nat := t - t % 2

/-- Translation of utils.rs sign_extend_u32: shift the usize value left by
32 - bits (a 64-bit shift), truncate to i32, then arithmetic-shift right by
the same amount.  The Rust assert!(bits <= 32) holds at every call site. -/
def sign_extend_u32 (value : Nat) (bits : Nat) : Int :=
  let shift := 32 - bits
  ashr (toI32 ((value <<< shift) % 2^64)) shift

/-- Truncation of an i32 result to its low `bits` bits, the inverse
direction of sign extension used to state the round-trip property. -/
def truncBits (x : Int) (bits : Nat) : Nat := wrap32 x % 2^bits

/-! Memory: 16 MiB of byte-addressable storage (risc_v.rs, Memory). -/

def MEM_SIZE : Nat := 0x1000000

structure Memory where
  mem : Nat → Nat

/-- Pointwise update of a byte function, the effect of one `self.mem[i] = v`
assignment. -/
def updByte (f : Nat → Nat) (a v : Nat) : Nat → Nat :=
  fun i => if i = a then v else f i

namespace Memory

/-- Translation of `impl Index<usize> for Memory`: a bounds-checked byte
read. -/
def index (m : Memory) (i : Nat) : Option Nat :=
  if i < MEM_SIZE then some (m.mem i) else none

/-- Translation of `impl IndexMut<usize> for Memory` as used for byte
stores (SB): a bounds-checked byte write. -/
def index_mut (m : Memory) (i v : Nat) : Option Memory :=
  if i < MEM_SIZE then some ⟨updByte m.mem i v⟩ else none

/-- Memory::fetch_word: asserts 4-alignment and bounds, then composes the
four bytes little-endian (u32::from_le_bytes). -/
def fetch_word (m : Memory) (addr : Nat) : Option Nat :=
  if addr % 4 = 0 then
    if addr ≤ MEM_SIZE - 4 then
      match m.index addr, m.index (addr+1), m.index (addr+2), m.index (addr+3) with
      | some b0, some b1, some b2, some b3 => some (b0 + b1 * 2^8 + b2 * 2^16 + b3 * 2^24)
      | _, _, _, _ => none
    else none
  else none

/-- Memory::store_word: asserts 4-alignment and bounds, then writes the four
little-endian bytes of the value (u32::to_le_bytes) in address order. -/
def store_word (m : Memory) (addr v : Nat) : Option Memory :=
  if addr % 4 = 0 then
    if addr ≤ MEM_SIZE - 4 then
      some ⟨updByte (updByte (updByte (updByte m.mem
        addr (v % 2^8))
        (addr+1) (v / 2^8 % 2^8))
        (addr+2) (v / 2^16 % 2^8))
        (addr+3) (v / 2^24 % 2^8)⟩
    else none
  else none

/-- Memory::fetch_halfword: asserts 2-alignment and bounds, then composes
the two bytes little-endian (u16::from_le_bytes). -/
def fetch_halfword (m : Memory) (addr : Nat) : Option Nat :=
  if addr % 2 = 0 then
    if addr ≤ MEM_SIZE - 2 then
      match m.index addr, m.index (addr+1) with
      | some b0, some b1 => some (b0 + b1 * 2^8)
      | _, _ => none
    else none
  else none

/-- Memory::store_halfword: asserts 2-alignment and bounds, then writes the
two little-endian bytes of the value (u16::to_le_bytes) in address order. -/
def store_halfword (m : Memory) (addr v : Nat) : Option Memory :=
  if addr % 2 = 0 then
    if addr ≤ MEM_SIZE - 2 then
      some ⟨updByte (updByte m.mem addr (v % 2^8)) (addr+1) (v / 2^8 % 2^8)⟩
    else none
  else none

end Memory

/-! Opcode classification (risc_v.rs, enum OPCODE). -/

inductive OPCODE where
  | OPIMM | LUI | AUIPC | OPRR | JAL | JALR | BRANCH | LOAD | STORE | FENCE | SYSTEM
deriving DecidableEq

/-- OPCODE::value. -/
def OPCODE.value : OPCODE → Nat
  | .OPIMM => 0b0010011
  | .LUI => 0b0110111
  | .AUIPC => 0b0010111
  | .OPRR => 0b0110011
  | .JAL => 0b1101111
  | .JALR => 0b1100111
  | .BRANCH => 0b1100011
  | .LOAD => 0b0000011
  | .STORE => 0b0100011
  | .FENCE => 0b0001111
  | .SYSTEM => 0b1110011

/-- OPCODE::from_value: the guard chain comparing against each value. -/
def OPCODE.from_value (v : Nat) : Option OPCODE :=
  if v = OPCODE.OPIMM.value then some .OPIMM
  else if v = OPCODE.LUI.value then some .LUI
  else if v = OPCODE.AUIPC.value then some .AUIPC
  else if v = OPCODE.OPRR.value then some .OPRR
  else if v = OPCODE.JAL.value then some .JAL
  else if v = OPCODE.JALR.value then some .JALR
  else if v = OPCODE.BRANCH.value then some .BRANCH
  else if v = OPCODE.LOAD.value then some .LOAD
  else if v = OPCODE.STORE.value then some .STORE
  else if v = OPCODE.FENCE.value then some .FENCE
  else if v = OPCODE.SYSTEM.value then some .SYSTEM
  else none

/-- OPCODE::get_opcode: classify the low seven bits of an instruction
word. -/
def OPCODE.get_opcode (instruction : Nat) : Option OPCODE :=
  OPCODE.from_value (instruction &&& 0b1111111)

/-! Field extraction by encoding format (risc_v.rs, enum EncodingVariant). -/

inductive EncodingVariant where
  | RType (funct7 rs2 rs1 funct3 rd : Nat) (opcode : OPCODE)
  | IType (imm rs1 funct3 rd : Nat) (opcode : OPCODE)
  | SType (imm_11_5 rs2 rs1 funct3 imm_4_0 : Nat) (opcode : OPCODE)
  | BType (imm_12 imm_10_5 rs2 rs1 funct3 imm_4_1 imm_11 : Nat) (opcode : OPCODE)
  | UType (imm_31_12 rd : Nat) (opcode : OPCODE)
  | JType (imm_20 imm_10_1 imm_11 imm_19_12 rd : Nat) (opcode : OPCODE)
deriving DecidableEq

/-- EncodingVariant::get_encoding.  The .expect on an unrecognized opcode
and the todo!() arms for FENCE and SYSTEM are panics, modelled as none. -/
def EncodingVariant.get_encoding (instruction : Nat) : Option EncodingVariant :=
  match OPCODE.get_opcode instruction with
  | none => none
  | some opcode =>
    match opcode with
    | .OPIMM => some (.IType (instruction >>> 20 &&& 0b111111111111)
        (instruction >>> 15 &&& 0b11111) (instruction >>> 12 &&& 0b111)
        (instruction >>> 7 &&& 0b11111) opcode)
    | .LUI => some (.UType (instruction >>> 12 &&& 0b11111111111111111111)
        (instruction >>> 7 &&& 0b11111) opcode)
    | .AUIPC => some (.UType (instruction >>> 12 &&& 0b11111111111111111111)
        (instruction >>> 7 &&& 0b11111) opcode)
    | .OPRR => some (.RType (instruction >>> 25 &&& 0b1111111)
        (instruction >>> 20 &&& 0b11111) (instruction >>> 15 &&& 0b11111)
        (instruction >>> 12 &&& 0b111) (instruction >>> 7 &&& 0b11111) opcode)
    | .JAL => some (.JType (instruction >>> 31 &&& 0b1)
        (instruction >>> 21 &&& 0b1111111111) (instruction >>> 20 &&& 0b1)
        (instruction >>> 12 &&& 0b11111111) (instruction >>> 7 &&& 0b11111) opcode)
    | .JALR => some (.IType (instruction >>> 20 &&& 0b111111111111)
        (instruction >>> 15 &&& 0b11111) (instruction >>> 12 &&& 0b111)
        (instruction >>> 7 &&& 0b11111) opcode)
    | .BRANCH => some (.BType (instruction >>> 31 &&& 0b1)
        (instruction >>> 25 &&& 0b111111) (instruction >>> 20 &&& 0b11111)
        (instruction >>> 15 &&& 0b11111) (instruction >>> 12 &&& 0b111)
        (instruction >>> 8 &&& 0b1111) (instruction >>> 7 &&& 0b1) opcode)
    | .LOAD => some (.IType (instruction >>> 20 &&& 0b111111111111)
        (instruction >>> 15 &&& 0b11111) (instruction >>> 12 &&& 0b111)
        (instruction >>> 7 &&& 0b11111) opcode)
    | .STORE => some (.SType (instruction >>> 25 &&& 0b1111111)
        (instruction >>> 20 &&& 0b11111) (instruction >>> 15 &&& 0b11111)
        (instruction >>> 12 &&& 0b111) (instruction >>> 7 &&& 0b11111) opcode)
    | .FENCE => none
    | .SYSTEM => none

/-! Decoded instructions (risc_v.rs, enum Instruction).  Signed Rust fields
(i32) are Int, unsigned ones (u32/usize) are Nat.  The misspelt STLIU
constructor is the source's own name. -/

inductive Instruction where
  | ADDI (imm : Int) (rs1 rd : Nat)
  | SLTI (imm : Int) (rs1 rd : Nat)
  | STLIU (imm : Nat) (rs1 rd : Nat)
  | ANDI (imm : Nat) (rs1 rd : Nat)
  | ORI (imm : Nat) (rs1 rd : Nat)
  | XORI (imm : Nat) (rs1 rd : Nat)
  | SLLI (shamt : Nat) (rs1 rd : Nat)
  | SRLI (shamt : Nat) (rs1 rd : Nat)
  | SRAI (shamt : Nat) (rs1 rd : Nat)
  | LUI (imm : Nat) (rd : Nat)
  | AUIPC (imm : Nat) (rd : Nat)
  | ADD (rs1 rs2 rd : Nat)
  | SUB (rs1 rs2 rd : Nat)
  | SLT (rs1 rs2 rd : Nat)
  | SLTU (rs1 rs2 rd : Nat)
  | AND (rs1 rs2 rd : Nat)
  | OR (rs1 rs2 rd : Nat)
  | XOR (rs1 rs2 rd : Nat)
  | SLL (rs1 rs2 rd : Nat)
  | SRL (rs1 rs2 rd : Nat)
  | SRA (rs1 rs2 rd : Nat)
  | JAL (offset : Int) (rd : Nat)
  | JALR (offset : Int) (rs1 rd : Nat)
  | BEQ (offset : Int) (rs1 rs2 : Nat)
  | BNE (offset : Int) (rs1 rs2 : Nat)
  | BLT (offset : Int) (rs1 rs2 : Nat)
  | BLTU (offset : Int) (rs1 rs2 : Nat)
  | BGE (offset : Int) (rs1 rs2 : Nat)
  | BGEU (offset : Int) (rs1 rs2 : Nat)
  | LW (offset : Int) (rs1 rd : Nat)
  | LH (offset : Int) (rs1 rd : Nat)
  | LHU (offset : Int) (rs1 rd : Nat)
  | LB (offset : Int) (rs1 rd : Nat)
  | LBU (offset : Int) (rs1 rd : Nat)
  | SW (offset : Int) (rs1 rs2 : Nat)
  | SH (offset : Int) (rs1 rs2 : Nat)
  | SB (offset : Int) (rs1 rs2 : Nat)
deriving DecidableEq

namespace Instruction

def ADDI_FUNCT3 : Nat := 0b000
def SLTI_FUNCT3 : Nat := 0b010
def SLTIU_FUNCT3 : Nat := 0b011
def ANDI_FUNCT3 : Nat := 0b111
def ORI_FUNCT3 : Nat := 0b110
def XORI_FUNCT3 : Nat := 0b100
def SLLI_FUNCT3 : Nat := 0b001
def SRLI_FUNCT3 : Nat := 0b101
def SRAI_FUNCT3 : Nat := 0b101

def ADD_FUNCT3 : Nat := 0b000
def ADD_FUNCT7 : Nat := 0b0000000
def SUB_FUNCT3 : Nat := 0b000
def SUB_FUNCT7 : Nat := 0b0100000
def SLT_FUNCT3 : Nat := 0b010
def SLT_FUNCT7 : Nat := 0b0000000
def SLTU_FUNCT3 : Nat := 0b011
def SLTU_FUNCT7 : Nat := 0b0000000
def AND_FUNCT3 : Nat := 0b111
def AND_FUNCT7 : Nat := 0b0000000
def OR_FUNCT3 : Nat := 0b110
def OR_FUNCT7 : Nat := 0b0000000
def XOR_FUNCT3 : Nat := 0b100
def XOR_FUNCT7 : Nat := 0b0000000
def SLL_FUNCT3 : Nat := 0b001
def SLL_FUNCT7 : Nat := 0b0000000
def SRL_FUNCT3 : Nat := 0b101
def SRL_FUNCT7 : Nat := 0b0000000
def SRA_FUNCT3 : Nat := 0b101
def SRA_FUNCT7 : Nat := 0b0100000

def JALR_FUNCT3 : Nat := 0b000

def BEQ_FUNCT3 : Nat := 0b000
def BNE_FUNCT3 : Nat := 0b001
def BLT_FUNCT3 : Nat := 0b100
def BLTU_FUNCT3 : Nat := 0b110
def BGE_FUNCT3 : Nat := 0b101
def BGEU_FUNCT3 : Nat := 0b111

def LW_FUNCT3 : Nat := 0b010
def LH_FUNCT3 : Nat := 0b001
def LHU_FUNCT3 : Nat := 0b101
def LB_FUNCT3 : Nat := 0b000
def LBU_FUNCT3 : Nat := 0b100

def SW_FUNCT3 : Nat := 0b010
def SH_FUNCT3 : Nat := 0b001
def SB_FUNCT3 : Nat := 0b000

def OPIMM_BITS : Nat := 12
def JAL_BITS : Nat := 21
def JALR_BITS : Nat := 12
def BRANCH_BITS : Nat := 13
def LOAD_BITS : Nat := 12
def STORE_BITS : Nat := 12

/-- Instruction::parse_instruction.  The panic! and todo!() fallthrough arms
are modelled as none.  Note: the SLLI arm accepts any high seven bits of the
immediate (the source checks imm >> 5 only for SRLI and SRAI). -/
def parse_instruction : EncodingVariant → Option Instruction
  | .IType imm rs1 funct3 rd opcode =>
    if opcode = .OPIMM ∧ funct3 = ADDI_FUNCT3 then
      some (.ADDI (sign_extend_u32 imm OPIMM_BITS) rs1 rd)
    else if opcode = .OPIMM ∧ funct3 = SLTI_FUNCT3 then
      some (.SLTI (sign_extend_u32 imm OPIMM_BITS) rs1 rd)
    else if opcode = .OPIMM ∧ funct3 = SLTIU_FUNCT3 then
      some (.STLIU (wrap32 (sign_extend_u32 imm OPIMM_BITS)) rs1 rd)
    else if opcode = .OPIMM ∧ funct3 = ANDI_FUNCT3 then
      some (.ANDI (wrap32 (sign_extend_u32 imm OPIMM_BITS)) rs1 rd)
    else if opcode = .OPIMM ∧ funct3 = ORI_FUNCT3 then
      some (.ORI (wrap32 (sign_extend_u32 imm OPIMM_BITS)) rs1 rd)
    else if opcode = .OPIMM ∧ funct3 = XORI_FUNCT3 then
      some (.XORI (wrap32 (sign_extend_u32 imm OPIMM_BITS)) rs1 rd)
    else if opcode = .OPIMM ∧ funct3 = SLLI_FUNCT3 then
      some (.SLLI (imm &&& 0b11111) rs1 rd)
    else if opcode = .OPIMM ∧ funct3 = SRLI_FUNCT3 ∧ imm >>> 5 = 0 then
      some (.SRLI (imm &&& 0b11111) rs1 rd)
    else if opcode = .OPIMM ∧ funct3 = SRAI_FUNCT3 ∧ imm >>> 5 = 0b0100000 then
      some (.SRAI (imm &&& 0b11111) rs1 rd)
    else if opcode = .JALR ∧ funct3 = JALR_FUNCT3 then
      some (.JALR (sign_extend_u32 imm JALR_BITS) rs1 rd)
    else if opcode = .LOAD ∧ funct3 = LW_FUNCT3 then
      some (.LW (sign_extend_u32 imm LOAD_BITS) rs1 rd)
    else if opcode = .LOAD ∧ funct3 = LH_FUNCT3 then
      some (.LH (sign_extend_u32 imm LOAD_BITS) rs1 rd)
    else if opcode = .LOAD ∧ funct3 = LHU_FUNCT3 then
      some (.LHU (sign_extend_u32 imm LOAD_BITS) rs1 rd)
    else if opcode = .LOAD ∧ funct3 = LB_FUNCT3 then
      some (.LB (sign_extend_u32 imm LOAD_BITS) rs1 rd)
    else if opcode = .LOAD ∧ funct3 = LBU_FUNCT3 then
      some (.LBU (sign_extend_u32 imm LOAD_BITS) rs1 rd)
    else none
  | .UType imm_31_12 rd opcode =>
    if opcode = .LUI then some (.LUI (imm_31_12 <<< 12) rd)
    else if opcode = .AUIPC then some (.AUIPC (imm_31_12 <<< 12) rd)
    else none
  | .RType funct7 rs2 rs1 funct3 rd opcode =>
    if opcode = .OPRR ∧ funct3 = ADD_FUNCT3 ∧ funct7 = ADD_FUNCT7 then
      some (.ADD rs1 rs2 rd)
    else if opcode = .OPRR ∧ funct3 = SUB_FUNCT3 ∧ funct7 = SUB_FUNCT7 then
      some (.SUB rs1 rs2 rd)
    else if opcode = .OPRR ∧ funct3 = SLT_FUNCT3 ∧ funct7 = SLT_FUNCT7 then
      some (.SLT rs1 rs2 rd)
    else if opcode = .OPRR ∧ funct3 = SLTU_FUNCT3 ∧ funct7 = SLTU_FUNCT7 then
      some (.SLTU rs1 rs2 rd)
    else if opcode = .OPRR ∧ funct3 = AND_FUNCT3 ∧ funct7 = AND_FUNCT7 then
      some (.AND rs1 rs2 rd)
    else if opcode = .OPRR ∧ funct3 = OR_FUNCT3 ∧ funct7 = OR_FUNCT7 then
      some (.OR rs1 rs2 rd)
    else if opcode = .OPRR ∧ funct3 = XOR_FUNCT3 ∧ funct7 = XOR_FUNCT7 then
      some (.XOR rs1 rs2 rd)
    else if opcode = .OPRR ∧ funct3 = SLL_FUNCT3 ∧ funct7 = SLL_FUNCT7 then
      some (.SLL rs1 rs2 rd)
    else if opcode = .OPRR ∧ funct3 = SRL_FUNCT3 ∧ funct7 = SRL_FUNCT7 then
      some (.SRL rs1 rs2 rd)
    else if opcode = .OPRR ∧ funct3 = SRA_FUNCT3 ∧ funct7 = SRA_FUNCT7 then
      some (.SRA rs1 rs2 rd)
    else none
  | .JType imm_20 imm_10_1 imm_11 imm_19_12 rd opcode =>
    if opcode = .JAL then
      some (.JAL (sign_extend_u32
        ((imm_20 <<< 20) ||| (imm_19_12 <<< 12) ||| (imm_11 <<< 11) ||| (imm_10_1 <<< 1))
        JAL_BITS) rd)
    else none
  | .BType imm_12 imm_10_5 rs2 rs1 funct3 imm_4_1 imm_11 opcode =>
    let offset : Int := sign_extend_u32
      ((imm_12 <<< 12) ||| (imm_11 <<< 11) ||| (imm_10_5 <<< 5) ||| (imm_4_1 <<< 1))
      BRANCH_BITS
    if opcode = .BRANCH ∧ funct3 = BEQ_FUNCT3 then some (.BEQ offset rs1 rs2)
    else if opcode = .BRANCH ∧ funct3 = BNE_FUNCT3 then some (.BNE offset rs1 rs2)
    else if opcode = .BRANCH ∧ funct3 = BLT_FUNCT3 then some (.BLT offset rs1 rs2)
    else if opcode = .BRANCH ∧ funct3 = BLTU_FUNCT3 then some (.BLTU offset rs1 rs2)
    else if opcode = .BRANCH ∧ funct3 = BGE_FUNCT3 then some (.BGE offset rs1 rs2)
    else if opcode = .BRANCH ∧ funct3 = BGEU_FUNCT3 then some (.BGEU offset rs1 rs2)
    else none
  | .SType imm_11_5 rs2 rs1 funct3 imm_4_0 opcode =>
    let offset : Int := sign_extend_u32 ((imm_11_5 <<< 5) ||| imm_4_0) STORE_BITS
    if opcode = .STORE ∧ funct3 = SW_FUNCT3 then some (.SW offset rs1 rs2)
    else if opcode = .STORE ∧ funct3 = SH_FUNCT3 then some (.SH offset rs1 rs2)
    else if opcode = .STORE ∧ funct3 = SB_FUNCT3 then some (.SB offset rs1 rs2)
    else none

end Instruction

/-- Decoding an instruction word: field extraction followed by mnemonic
resolution, the composition the hart's execute performs. -/
def decode (w : Nat) : Option Instruction :=
  (EncodingVariant.get_encoding w).bind Instruction.parse_instruction

/-! Hart state (risc_v.rs, struct RISCV). -/

structure RISCV where
  reg : Nat → Nat
  pc : Nat
  current_instruction : Nat

/-- RISCV::reset: zeroed registers, pc = 0. -/
def RISCV.reset : RISCV := ⟨fun _ => 0, 0, 0⟩

/-- Register writeback guarded by the source's `if rd != 0` check that every
execute arm performs before assigning self.reg[rd]. -/
def writeback (regs : Nat → Nat) (rd v : Nat) : Nat → Nat :=
  if rd ≠ 0 then fun i => if i = rd then v else regs i else regs

/-- Semantic action of one decoded instruction: the match body of
RISCV::execute.  Asserts are none; &mut self / &mut Memory become the
returned pair.  Note the source's JALR arm performs the rd writeback before
reading reg[rs1] for the target. -/
def executeInstr (s : RISCV) (mem : Memory) : Instruction → Option (RISCV × Memory)
  | .ADDI imm rs1 rd =>
    some ({ s with reg := writeback s.reg rd (wadd (s.reg rs1) (wrap32 imm)) }, mem)
  | .SLTI imm rs1 rd =>
    some ({ s with reg := writeback s.reg rd (if toI32 (s.reg rs1) < imm then 1 else 0) }, mem)
  | .STLIU imm rs1 rd =>
    some ({ s with reg := writeback s.reg rd (if s.reg rs1 < imm then 1 else 0) }, mem)
  | .ANDI imm rs1 rd =>
    some ({ s with reg := writeback s.reg rd (s.reg rs1 &&& imm) }, mem)
  | .ORI imm rs1 rd =>
    some ({ s with reg := writeback s.reg rd (s.reg rs1 ||| imm) }, mem)
  | .XORI imm rs1 rd =>
    some ({ s with reg := writeback s.reg rd (s.reg rs1 ^^^ imm) }, mem)
  | .SLLI shamt rs1 rd =>
    some ({ s with reg := writeback s.reg rd ((s.reg rs1 <<< shamt) % 2^32) }, mem)
  | .SRLI shamt rs1 rd =>
    some ({ s with reg := writeback s.reg rd (s.reg rs1 >>> shamt) }, mem)
  | .SRAI shamt rs1 rd =>
    some ({ s with reg := writeback s.reg rd (wrap32 (ashr (toI32 (s.reg rs1)) shamt)) }, mem)
  | .LUI imm rd =>
    some ({ s with reg := writeback s.reg rd imm }, mem)
  | .AUIPC imm rd =>
    some ({ s with reg := writeback s.reg rd (wadd s.pc imm) }, mem)
  | .ADD rs1 rs2 rd =>
    some ({ s with reg := writeback s.reg rd (wadd (s.reg rs1) (s.reg rs2)) }, mem)
  | .SUB rs1 rs2 rd =>
    some ({ s with reg := writeback s.reg rd (wsub (s.reg rs1) (s.reg rs2)) }, mem)
  | .SLT rs1 rs2 rd =>
    some ({ s with reg := (writeback s.reg rd
      (if toI32 (s.reg rs1) < toI32 (s.reg rs2) then 1 else 0)) }, mem)
  | .SLTU rs1 rs2 rd =>
    some ({ s with reg := writeback s.reg rd (if s.reg rs1 < s.reg rs2 then 1 else 0) }, mem)
  | .AND rs1 rs2 rd =>
    some ({ s with reg := writeback s.reg rd (s.reg rs1 &&& s.reg rs2) }, mem)
  | .OR rs1 rs2 rd =>
    some ({ s with reg := writeback s.reg rd (s.reg rs1 ||| s.reg rs2) }, mem)
  | .XOR rs1 rs2 rd =>
    some ({ s with reg := writeback s.reg rd (s.reg rs1 ^^^ s.reg rs2) }, mem)
  | .SLL rs1 rs2 rd =>
    some ({ s with reg := (writeback s.reg rd
      ((s.reg rs1 <<< (s.reg rs2 &&& 0b11111)) % 2^32)) }, mem)
  | .SRL rs1 rs2 rd =>
    some ({ s with reg := writeback s.reg rd (s.reg rs1 >>> (s.reg rs2 &&& 0b11111)) }, mem)
  | .SRA rs1 rs2 rd =>
    some ({ s with reg := (writeback s.reg rd
      (wrap32 (ashr (toI32 (s.reg rs1)) (s.reg rs2 &&& 0b11111)))) }, mem)
  | .JAL offset rd =>
    if offset % 2 = 0 then
      let regs := writeback s.reg rd (wadd s.pc 4)
      let target_address := waddSigned s.pc offset
      if target_address % 4 = 0 then
        some ({ s with reg := regs, pc := wsub target_address 4 }, mem)
      else none
    else none
  | .JALR offset rs1 rd =>
    let regs := writeback s.reg rd (wadd s.pc 4)
    let target_address := clearBit0 (waddSigned (regs rs1) offset)
    if target_address % 4 = 0 then
      some ({ s with reg := regs, pc := wsub target_address 4 }, mem)
    else none
  | .BEQ offset rs1 rs2 =>
    let target_address := waddSigned s.pc offset
    if s.reg rs1 = s.reg rs2 then
      if target_address % 4 = 0 then
        some ({ s with pc := wsub target_address 4 }, mem)
      else none
    else some (s, mem)
  | .BNE offset rs1 rs2 =>
    let target_address := waddSigned s.pc offset
    if s.reg rs1 ≠ s.reg rs2 then
      if target_address % 4 = 0 then
        some ({ s with pc := wsub target_address 4 }, mem)
      else none
    else some (s, mem)
  | .BLT offset rs1 rs2 =>
    let target_address := waddSigned s.pc offset
    if toI32 (s.reg rs1) < toI32 (s.reg rs2) then
      if target_address % 4 = 0 then
        some ({ s with pc := wsub target_address 4 }, mem)
      else none
    else some (s, mem)
  | .BLTU offset rs1 rs2 =>
    let target_address := waddSigned s.pc offset
    if s.reg rs1 < s.reg rs2 then
      if target_address % 4 = 0 then
        some ({ s with pc := wsub target_address 4 }, mem)
      else none
    else some (s, mem)
  | .BGE offset rs1 rs2 =>
    let target_address := waddSigned s.pc offset
    if toI32 (s.reg rs2) ≤ toI32 (s.reg rs1) then
      if target_address % 4 = 0 then
        some ({ s with pc := wsub target_address 4 }, mem)
      else none
    else some (s, mem)
  | .BGEU offset rs1 rs2 =>
    let target_address := waddSigned s.pc offset
    if s.reg rs2 ≤ s.reg rs1 then
      if target_address % 4 = 0 then
        some ({ s with pc := wsub target_address 4 }, mem)
      else none
    else some (s, mem)
  | .LW offset rs1 rd =>
    match mem.fetch_word (waddSigned (s.reg rs1) offset) with
    | some loaded_word => some ({ s with reg := writeback s.reg rd loaded_word }, mem)
    | none => none
  | .LH offset rs1 rd =>
    match mem.fetch_halfword (waddSigned (s.reg rs1) offset) with
    | some loaded_halfword =>
      some ({ s with reg := writeback s.reg rd (wrap32 (sign_extend_u32 loaded_halfword 16)) }, mem)
    | none => none
  | .LHU offset rs1 rd =>
    match mem.fetch_halfword (waddSigned (s.reg rs1) offset) with
    | some loaded_halfword =>
      some ({ s with reg := writeback s.reg rd loaded_halfword }, mem)
    | none => none
  | .LB offset rs1 rd =>
    match mem.index (waddSigned (s.reg rs1) offset) with
    | some loaded_byte =>
      some ({ s with reg := writeback s.reg rd (wrap32 (sign_extend_u32 loaded_byte 8)) }, mem)
    | none => none
  | .LBU offset rs1 rd =>
    match mem.index (waddSigned (s.reg rs1) offset) with
    | some loaded_byte =>
      some ({ s with reg := writeback s.reg rd loaded_byte }, mem)
    | none => none
  | .SW offset rs1 rs2 =>
    match mem.store_word (waddSigned (s.reg rs1) offset) (s.reg rs2) with
    | some mem2 => some (s, mem2)
    | none => none
  | .SH offset rs1 rs2 =>
    match mem.store_halfword (waddSigned (s.reg rs1) offset) (s.reg rs2 % 2^16) with
    | some mem2 => some (s, mem2)
    | none => none
  | .SB offset rs1 rs2 =>
    match mem.index_mut (waddSigned (s.reg rs1) offset) (s.reg rs2 % 2^8) with
    | some mem2 => some (s, mem2)
    | none => none

/-- RISCV::execute: decode the current instruction (panicking decode paths
are none) and apply its semantic action. -/
def execute (s : RISCV) (mem : Memory) : Option (RISCV × Memory) :=
  (decode s.current_instruction).bind (fun parsed => executeInstr s mem parsed)

/-- RISCV::fetch_instruction: read the word pc points to into the
current-instruction scratch field. -/
def fetch_instruction (s : RISCV) (mem : Memory) : Option RISCV :=
  (mem.fetch_word s.pc).bind (fun w => some { s with current_instruction := w })

/-- RISCV::increment_pc: wrapping pc += 4. -/
def increment_pc (s : RISCV) : RISCV := { s with pc := wadd s.pc 4 }

/-- RISCV::clock_cycle: fetch, execute, then increment pc. -/
def clock_cycle (s : RISCV) (mem : Memory) : Option (RISCV × Memory) :=
  (fetch_instruction s mem).bind (fun s1 =>
    (execute s1 mem).bind (fun p => some (increment_pc p.1, p.2)))

/-- Iterated clock cycles: the reachable-state relation after n successful
steps. -/
def stepN : Nat → RISCV → Memory → Option (RISCV × Memory)
  | 0, s, mem => some (s, mem)
  | n+1, s, mem =>
    match clock_cycle s mem with
    | some (s2, mem2) => stepN n s2 mem2
    | none => none

/-- Jump instructions (JAL and JALR). -/
def isJump : Instruction → Bool
  | .JAL _ _ => true
  | .JALR _ _ _ => true
  | _ => false

/-- Branch instructions whose condition holds in the given register file,
with the source's signed/unsigned comparisons. -/
def branchTaken (regs : Nat → Nat) : Instruction → Bool
  | .BEQ _ rs1 rs2 => regs rs1 = regs rs2
  | .BNE _ rs1 rs2 => regs rs1 ≠ regs rs2
  | .BLT _ rs1 rs2 => toI32 (regs rs1) < toI32 (regs rs2)
  | .BLTU _ rs1 rs2 => regs rs1 < regs rs2
  | .BGE _ rs1 rs2 => toI32 (regs rs2) ≤ toI32 (regs rs1)
  | .BGEU _ rs1 rs2 => regs rs2 ≤ regs rs1
  | _ => false

/-- Target address a jump or branch computes in the given pre-state, exactly
as the execute arms compute it (for JALR: from the register file after the
link writeback, as the source does). -/
def targetOf (s : RISCV) : Instruction → Nat
  | .JAL offset _ => waddSigned s.pc offset
  | .JALR offset rs1 rd => clearBit0 (waddSigned (writeback s.reg rd (wadd s.pc 4) rs1) offset)
  | .BEQ offset _ _ => waddSigned s.pc offset
  | .BNE offset _ _ => waddSigned s.pc offset
  | .BLT offset _ _ => waddSigned s.pc offset
  | .BLTU offset _ _ => waddSigned s.pc offset
  | .BGE offset _ _ => waddSigned s.pc offset
  | .BGEU offset _ _ => waddSigned s.pc offset
  | _ => 0

/-! Concrete memories and states used to exercise the model. -/

/-- Installing one 32-bit little-endian word, as the program loader and
Memory::store_word lay bytes out. -/
def installWord (f : Nat → Nat) (a w : Nat) : Nat → Nat :=
  updByte (updByte (updByte (updByte f
    a (w % 2^8)) (a+1) (w / 2^8 % 2^8)) (a+2) (w / 2^16 % 2^8)) (a+3) (w / 2^24 % 2^8)

/-- All-zero memory. -/
def zeroMem : Memory := ⟨fun _ => 0⟩

/-- Memory holding the single word 0x13 (ADDI x0, x0, 0) at address 0. -/
def nopMem : Memory := ⟨installWord (fun _ => 0) 0 0x00000013⟩

/-- Hart state after one clock cycle from reset on nopMem. -/
def nopState : RISCV := { reg := fun _ => 0, pc := 4, current_instruction := 0x00000013 }

/-- Program of the call-and-return scenario: ADDI x10,x0,5 at 0;
ADDI x11,x0,3 at 4; JAL x1,+8 at 8; padding (a no-op word, never executed)
at 12; ADD x10,x10,x11 at 16; JALR x0,0(x1) at 20. -/
def c7mem : Memory := ⟨installWord (installWord (installWord (installWord (installWord (installWord
  (fun _ => 0)
  0 0x00500513) 4 0x00300593) 8 0x008000EF) 12 0x00000013) 16 0x00B50533) 20 0x00008067⟩

/-- Memory holding JALR x1, x1, 0 (rd = rs1 = x1) at address 0. -/
def c2mem : Memory := ⟨installWord (fun _ => 0) 0 0x000080E7⟩

/-- Hart state with reg[1] = 8 and pc = 0. -/
def c2start : RISCV := ⟨fun i => if i = 1 then 8 else 0, 0, 0⟩

/-- Memory holding JAL x1, +2 (a misaligned jump target) at address 0. -/
def c6mem : Memory := ⟨installWord (fun _ => 0) 0 0x002000EF⟩

/-! Helper lemmas. -/

/-- Register 0 is untouched by any writeback. -/
theorem writeback_zero (regs : Nat → Nat) (rd v : Nat) : writeback regs rd v 0 = regs 0 := by
  unfold writeback
  split
  · next h =>
    show (if 0 = rd then v else regs 0) = regs 0
    exact if_neg (Ne.symm h)
  · rfl

/-- Every semantic action preserves the value read from register 0. -/
theorem executeInstr_reg0 (s : RISCV) (mem : Memory) (i : Instruction) (s2 : RISCV)
    (m2 : Memory) (h : executeInstr s mem i = some (s2, m2)) : s2.reg 0 = s.reg 0 := by
  cases i <;>
    simp only [executeInstr] at h <;>
    (try split at h) <;>
    (try split at h) <;>
    (try (exfalso; exact Option.noConfusion h)) <;>
    injection h with h <;>
    injection h with h1 h2 <;>
    rw [← h1] <;>
    simp [writeback_zero]

/-- One whole clock cycle preserves the value read from register 0. -/
theorem clock_cycle_reg0 (s : RISCV) (mem : Memory) (s2 : RISCV) (m2 : Memory)
    (h : clock_cycle s mem = some (s2, m2)) : s2.reg 0 = s.reg 0 := by
  unfold clock_cycle fetch_instruction execute at h
  cases hf : Memory.fetch_word mem s.pc <;> rw [hf] at h <;>
    simp only [Option.none_bind, Option.some_bind] at h
  · exact absurd h (by simp)
  · next w =>
    cases hd : decode ({ s with current_instruction := w } : RISCV).current_instruction <;>
      rw [hd] at h <;> simp only [Option.none_bind, Option.some_bind] at h
    · exact absurd h (by simp)
    · next i =>
      cases he : executeInstr { s with current_instruction := w } mem i <;> rw [he] at h <;>
        simp only [Option.none_bind, Option.some_bind, Option.some.injEq] at h
      · exact absurd h (by simp)
      · next p =>
        have hr := executeInstr_reg0 { s with current_instruction := w } mem i p.1 p.2 (by
          rw [he])
        have h1 : increment_pc p.1 = s2 := congrArg Prod.fst h
        rw [← h1]
        simpa [increment_pc] using hr

/-- Register 0 stays 0 along any run of successful steps. -/
theorem stepN_reg0 (n : Nat) (s : RISCV) (mem : Memory) (p : RISCV × Memory)
    (h : stepN n s mem = some p) (h0 : s.reg 0 = 0) : p.1.reg 0 = 0 := by
  induction n generalizing s mem with
  | zero =>
    simp only [stepN, Option.some.injEq] at h
    rw [← h]; exact h0
  | succ n ih =>
    simp only [stepN] at h
    cases hc : clock_cycle s mem <;> rw [hc] at h
    · exact absurd h (by simp)
    · next q =>
      exact ih q.1 q.2 h ((clock_cycle_reg0 s mem q.1 q.2 (by rw [hc])).trans h0)

/-- The semantic action of a non-jump instruction whose branch condition
(if any) does not hold leaves the program counter untouched. -/
theorem executeInstr_pc (s : RISCV) (mem : Memory) (i : Instruction) (s2 : RISCV) (m2 : Memory)
    (h : executeInstr s mem i = some (s2, m2)) (hj : isJump i = false)
    (hb : branchTaken s.reg i = false) : s2.pc = s.pc := by
  cases i <;>
    simp only [executeInstr] at h <;>
    first
    | exact Bool.noConfusion hj
    | (simp only [branchTaken, decide_eq_false_iff_not] at hb
       rw [if_neg hb] at h
       injection h with h
       injection h with h1 h2
       rw [← h1])
    | ((try split at h) <;>
       (try (exfalso; exact Option.noConfusion h)) <;>
       injection h with h <;>
       injection h with h1 h2 <;>
       rw [← h1])

/-- Jump and branch targets do not depend on the current-instruction
scratch field. -/
theorem targetOf_current (s : RISCV) (w : Nat) (i : Instruction) :
    targetOf { s with current_instruction := w } i = targetOf s i := by
  cases i <;> rfl

/-- Wrapping addition of a signed offset always produces a 32-bit value. -/
theorem waddSigned_lt (x : Nat) (y : Int) : waddSigned x y < 2^32 := by
  unfold waddSigned wrap32
  omega

/-- Every computed jump or branch target is a 32-bit value. -/
theorem targetOf_lt (s : RISCV) (i : Instruction) : targetOf s i < 2^32 := by
  cases i <;> simp only [targetOf] <;>
    first
    | exact Nat.pos_pow_of_pos 32 (by norm_num)
    | exact waddSigned_lt _ _
    | (unfold clearBit0
       exact lt_of_le_of_lt (Nat.sub_le _ _) (waddSigned_lt _ _))

/-- Undoing the source's target-minus-four trick: the pc increment after
execute lands exactly on a 32-bit target. -/
theorem wadd_wsub_four (t : Nat) (h : t < 2^32) : wadd (wsub t 4) 4 = t := by
  unfold wadd wsub wrap32
  omega

/-- Executing a jump or a taken branch: a misaligned target is a fault, and
a successful execution sets pc to target minus 4 with the target aligned. -/
theorem executeInstr_jump (s : RISCV) (mem : Memory) (i : Instruction)
    (hi : isJump i = true ∨ branchTaken s.reg i = true) :
    (targetOf s i % 4 ≠ 0 → executeInstr s mem i = none) ∧
    (∀ s2 m2, executeInstr s mem i = some (s2, m2) →
      s2.pc = wsub (targetOf s i) 4 ∧ targetOf s i % 4 = 0) := by
  cases i <;> simp only [isJump, branchTaken] at hi <;>
    (try (rcases hi with hi | hi <;> exact Bool.noConfusion hi)) <;>
    simp only [executeInstr, targetOf]
  case JAL offset rd =>
    constructor
    · intro hmis
      rw [if_neg hmis]
      split <;> rfl
    · intro s2 m2 h
      split at h
      · split at h
        · next htgt =>
          injection h with h
          injection h with h1 h2
          exact ⟨by rw [← h1], htgt⟩
        · exact Option.noConfusion h
      · exact Option.noConfusion h
  case JALR offset rs1 rd =>
    constructor
    · intro hmis
      rw [if_neg hmis]
    · intro s2 m2 h
      split at h
      · next htgt =>
        injection h with h
        injection h with h1 h2
        exact ⟨by rw [← h1], htgt⟩
      · exact Option.noConfusion h
  all_goals
    rcases hi with hi | hi
    · exact Bool.noConfusion hi
    · simp only [decide_eq_true_eq] at hi
      constructor
      · intro hmis
        rw [if_pos hi, if_neg hmis]
      · intro s2 m2 h
        rw [if_pos hi] at h
        split at h
        · next htgt =>
          injection h with h
          injection h with h1 h2
          exact ⟨by rw [← h1], htgt⟩
        · exact Option.noConfusion h

/-- Storing then fetching a word at an aligned in-bounds address returns the
stored value. -/
theorem mem_word_roundtrip (m : Memory) (a v : Nat) (h4 : a % 4 = 0) (hb : a ≤ MEM_SIZE - 4)
    (hv : v < 2^32) :
    (m.store_word a v).bind (fun m2 => m2.fetch_word a) = some v := by
  unfold Memory.store_word
  rw [if_pos h4, if_pos hb]
  simp only [Option.some_bind]
  unfold Memory.fetch_word Memory.index
  rw [if_pos h4, if_pos hb]
  have hm : a + 3 < MEM_SIZE := by unfold MEM_SIZE at *; omega
  rw [if_pos (by omega : a < MEM_SIZE), if_pos (by omega : a + 1 < MEM_SIZE),
    if_pos (by omega : a + 2 < MEM_SIZE), if_pos (by omega : a + 3 < MEM_SIZE)]
  simp only [updByte]
  norm_num
  omega

/-- Storing then fetching a halfword at an aligned in-bounds address returns
the stored value. -/
theorem mem_half_roundtrip (m : Memory) (a v : Nat) (h2 : a % 2 = 0) (hb : a ≤ MEM_SIZE - 2)
    (hv : v < 2^16) :
    (m.store_halfword a v).bind (fun m2 => m2.fetch_halfword a) = some v := by
  unfold Memory.store_halfword
  rw [if_pos h2, if_pos hb]
  simp only [Option.some_bind]
  unfold Memory.fetch_halfword Memory.index
  rw [if_pos h2, if_pos hb]
  have hm : a + 1 < MEM_SIZE := by unfold MEM_SIZE at *; omega
  rw [if_pos (by omega : a < MEM_SIZE), if_pos hm]
  simp only [updByte]
  norm_num
  omega

/-- Storing then fetching a byte at an in-bounds address returns the stored
value. -/
theorem mem_byte_roundtrip (m : Memory) (a v : Nat) (hb : a < MEM_SIZE) :
    (m.index_mut a v).bind (fun m2 => m2.index a) = some v := by
  unfold Memory.index_mut
  rw [if_pos hb]
  simp only [Option.some_bind]
  unfold Memory.index
  rw [if_pos hb]
  simp [updByte]

/-- Sign-extension of a value of `bits` bits (1 ≤ bits ≤ 32) followed by
truncation to `bits` bits is the identity. -/
theorem sext_trunc (bits : Nat) (h1 : 0 < bits) (h2 : bits ≤ 32) (v : Nat) (hv : v < 2^bits) :
    truncBits (sign_extend_u32 v bits) bits = v := by
  have hspos : (0:Nat) < 2^(32-bits) := Nat.pos_pow_of_pos _ (by norm_num)
  have hpow : 2^bits * 2^(32 - bits) = 2^32 := by
    rw [← pow_add]; congr 1; omega
  have hble : (2:Nat)^bits ≤ 2^32 := Nat.pow_le_pow_right (by norm_num) h2
  have hshift : v <<< (32 - bits) = v * 2^(32 - bits) := Nat.shiftLeft_eq v (32 - bits)
  have hlt32 : v * 2^(32 - bits) < 2^32 := by
    calc v * 2^(32 - bits) < 2^bits * 2^(32 - bits) :=
          Nat.mul_lt_mul_of_lt_of_le hv le_rfl hspos
      _ = 2^32 := hpow
  have hlt64 : v * 2^(32 - bits) < 2^64 := lt_of_lt_of_le hlt32 (by norm_num)
  unfold truncBits sign_extend_u32 ashr toI32 wrap32
  simp only [hshift, Nat.mod_eq_of_lt hlt64, Nat.mod_eq_of_lt hlt32]
  by_cases hc : v * 2^(32 - bits) < 2^31
  · rw [if_pos hc]
    have hdvd : (((v * 2^(32-bits) : Nat) : Int)) / 2^(32-bits) = v := by
      push_cast
      exact Int.mul_ediv_cancel _ (by positivity)
    rw [hdvd]
    rw [Int.emod_eq_of_lt (by positivity) (by exact_mod_cast lt_of_lt_of_le hv hble)]
    rw [Int.toNat_natCast]
    exact Nat.mod_eq_of_lt hv
  · rw [if_neg hc]
    have hkey : ((v * 2^(32-bits) : Nat) : Int) - 2^32 = ((v:Int) - 2^bits) * 2^(32-bits) := by
      have hp : ((2:Int))^bits * 2^(32-bits) = 2^32 := by exact_mod_cast hpow
      push_cast
      ring_nf
      ring_nf at hp
      rw [← hp]
      ring
    rw [hkey, Int.mul_ediv_cancel _ (by positivity)]
    have hneg : (v:Int) - 2^bits < 0 := by
      have : (v:Int) < 2^bits := by exact_mod_cast hv
      omega
    have hge : (0:Int) ≤ (v:Int) - 2^bits + 2^32 := by
      have : (2:Int)^bits ≤ 2^32 := by exact_mod_cast hble
      omega
    have hlt : (v:Int) - 2^bits + 2^32 < 2^32 := by omega
    have hemod : ((v:Int) - 2^bits) % (2^32 : Int) = (v:Int) - 2^bits + 2^32 := by
      rw [← Int.add_mul_emod_self_left ((v:Int) - 2^bits) (2^32) 1]
      rw [mul_one]
      exact Int.emod_eq_of_lt hge hlt
    rw [hemod]
    have hS1 : (1:Nat) ≤ 2^(32-bits) := hspos
    have hcast : (v:Int) - 2^bits + 2^32 = ((v + 2^bits * (2^(32-bits) - 1) : Nat) : Int) := by
      push_cast [Nat.cast_sub hS1]
      have hp : ((2:Int))^bits * 2^(32-bits) = 2^32 := by exact_mod_cast hpow
      ring_nf
      ring_nf at hp
      rw [← hp]
      ring
    rw [hcast, Int.toNat_natCast, Nat.add_mul_mod_self_left, Nat.mod_eq_of_lt hv]

/-- Claim C1: the spec requires SLLI (OPIMM, funct3 = 001) to decode only
when the high seven bits of the immediate are 0000000 and to be a fatal
decode error otherwise.  The code checks the high bits for SRLI and SRAI
but not for SLLI: the word 0xFE311093 (OPIMM, funct3 = 001, immediate
high bits 1111111) decodes successfully to SLLI shamt = 3, rs1 = 2, rd = 1
instead of failing. -/
theorem slli_high_bits_accepted :
    (0xFE311093 >>> 20 &&& 0b111111111111) >>> 5 = 0b1111111 ∧
    decode 0xFE311093 = some (.SLLI 3 2 1) :=
  ⟨rfl, rfl⟩

/-- Claim C2: the spec requires the JALR target to be computed from the
value of reg[rs1] at the start of the instruction, in particular when
rd = rs1 ≠ 0.  The code writes the link address pc + 4 into rd before
reading reg[rs1]: from pc = 0 with reg[1] = 8, executing JALR x1, x1, 0
lands on pc = 4 (the link value) and leaves reg[1] = 4, whereas the
claimed target (reg[rs1] at the start, plus offset, LSB cleared) is 8. -/
theorem jalr_target_uses_link_value :
    (clock_cycle c2start c2mem).map (fun p => (p.1.pc, p.1.reg 1)) = some (4, 4) ∧
    clearBit0 (waddSigned (c2start.reg 1) 0) = 8 :=
  ⟨rfl, rfl⟩

/-- Claim C3: in every state reachable from reset (all registers zero,
pc = 0) by any number of successful clock cycles, register 0 reads as 0: no
instruction observably writes a nonzero value into register index 0. -/
theorem reg0_always_zero (n : Nat) (mem : Memory) (p : RISCV × Memory)
    (h : stepN n RISCV.reset mem = some p) : p.1.reg 0 = 0 :=
  stepN_reg0 n RISCV.reset mem p h rfl

/-- Witness for C3: one successful step (the nop program) from reset. -/
theorem reg0_always_zero_witness : (nopState, nopMem).1.reg 0 = 0 :=
  reg0_always_zero 1 nopMem (nopState, nopMem) rfl

/-- Claim C4: storing a 32-bit value at a 4-aligned in-bounds address and
fetching a word back is the identity, and likewise for 16-bit values at
2-aligned addresses via the halfword operations and for bytes at any
in-bounds address. -/
theorem mem_store_fetch_roundtrip :
    (∀ (m : Memory) (a v : Nat), a % 4 = 0 → a ≤ MEM_SIZE - 4 → v < 2^32 →
      (m.store_word a v).bind (fun m2 => m2.fetch_word a) = some v) ∧
    (∀ (m : Memory) (a v : Nat), a % 2 = 0 → a ≤ MEM_SIZE - 2 → v < 2^16 →
      (m.store_halfword a v).bind (fun m2 => m2.fetch_halfword a) = some v) ∧
    (∀ (m : Memory) (a v : Nat), a < MEM_SIZE → v < 2^8 →
      (m.index_mut a v).bind (fun m2 => m2.index a) = some v) :=
  ⟨mem_word_roundtrip, mem_half_roundtrip, fun m a v hb _ => mem_byte_roundtrip m a v hb⟩

/-- Witness for C4: concrete round trips through zeroed memory. -/
theorem mem_store_fetch_roundtrip_witness :
    (zeroMem.store_word 8 0xDEADBEEF).bind (fun m2 => m2.fetch_word 8) = some 0xDEADBEEF ∧
    (zeroMem.store_halfword 6 0xBEEF).bind (fun m2 => m2.fetch_halfword 6) = some 0xBEEF ∧
    (zeroMem.index_mut 5 0xAB).bind (fun m2 => m2.index 5) = some 0xAB :=
  ⟨mem_store_fetch_roundtrip.1 zeroMem 8 0xDEADBEEF (by decide) (by decide) (by decide),
    mem_store_fetch_roundtrip.2.1 zeroMem 6 0xBEEF (by decide) (by decide) (by decide),
    mem_store_fetch_roundtrip.2.2 zeroMem 5 0xAB (by decide) (by decide)⟩

/-- Claim C5: a successful clock cycle whose fetched instruction decodes to
a non-jump instruction whose branch condition (if any) does not hold leaves
the program counter at its old value plus 4, modulo 2^32. -/
theorem pc_plus_four (s : RISCV) (mem : Memory) (w : Nat) (i : Instruction)
    (s2 : RISCV) (m2 : Memory)
    (hf : mem.fetch_word s.pc = some w) (hd : decode w = some i)
    (hj : isJump i = false) (hb : branchTaken s.reg i = false)
    (h : clock_cycle s mem = some (s2, m2)) : s2.pc = (s.pc + 4) % 2^32 := by
  unfold clock_cycle fetch_instruction execute at h
  rw [hf] at h
  simp only [Option.some_bind] at h
  rw [hd] at h
  simp only [Option.some_bind] at h
  cases he : executeInstr { s with current_instruction := w } mem i <;> rw [he] at h
  · exact absurd h (by simp)
  · next p =>
    simp only [Option.some_bind, Option.some.injEq] at h
    have hpc := executeInstr_pc { s with current_instruction := w } mem i p.1 p.2
      (by rw [he]) hj (by exact hb)
    have h1 : increment_pc p.1 = s2 := congrArg Prod.fst h
    rw [← h1]
    simp only [increment_pc]
    rw [hpc]
    rfl

/-- Witness for C5: the nop step from reset advances pc from 0 to 4. -/
theorem pc_plus_four_witness : nopState.pc = (RISCV.reset.pc + 4) % 2^32 :=
  pc_plus_four RISCV.reset nopMem 0x00000013 (.ADDI 0 0 0) nopState nopMem
    rfl rfl rfl rfl rfl

/-- Claim C6: for a fetched instruction that is a jump or a branch whose
condition holds, a target address that is not a multiple of 4 makes the
step a fatal fault, and a successful step sets the program counter to the
target, a multiple of 4. -/
theorem jump_branch_target_aligned (s : RISCV) (mem : Memory) (w : Nat) (i : Instruction)
    (hf : mem.fetch_word s.pc = some w) (hd : decode w = some i)
    (hi : isJump i = true ∨ branchTaken s.reg i = true) :
    (targetOf s i % 4 ≠ 0 → clock_cycle s mem = none) ∧
    (∀ s2 m2, clock_cycle s mem = some (s2, m2) →
      s2.pc = targetOf s i ∧ s2.pc % 4 = 0) := by
  have key := executeInstr_jump { s with current_instruction := w } mem i (by exact hi)
  rw [targetOf_current] at key
  unfold clock_cycle fetch_instruction execute
  rw [hf]
  simp only [Option.some_bind]
  rw [hd]
  simp only [Option.some_bind]
  constructor
  · intro hmis
    rw [key.1 hmis]
    rfl
  · intro s2 m2 h
    cases he : executeInstr { s with current_instruction := w } mem i <;> rw [he] at h
    · exact absurd h (by simp)
    · next p =>
      simp only [Option.some_bind, Option.some.injEq] at h
      obtain ⟨hpc, htgt⟩ := key.2 p.1 p.2 (by rw [he])
      have h1 : increment_pc p.1 = s2 := congrArg Prod.fst h
      rw [← h1]
      simp only [increment_pc]
      rw [hpc, wadd_wsub_four _ (targetOf_lt s i)]
      exact ⟨rfl, htgt⟩

/-- Witness for C6: JAL x1, +2 from reset computes the misaligned target 2
and the step faults. -/
theorem jump_branch_target_aligned_witness : clock_cycle RISCV.reset c6mem = none :=
  (jump_branch_target_aligned RISCV.reset c6mem 0x002000EF (.JAL 2 1) rfl rfl
    (Or.inl rfl)).1 (by decide)

/-- Claim C7: from reset, with ADDI x10,x0,5; ADDI x11,x0,3; JAL x1,+8;
(padding); ADD x10,x10,x11; JALR x0,0(x1) installed from address 0 (the JAL
target is the ADD, the JALR returns to 0x0C), five clock cycles leave
reg[10] = 8, reg[1] = 0x0C and pc = 0x0C. -/
theorem jal_jalr_scenario :
    (stepN 5 RISCV.reset c7mem).map (fun p => (p.1.reg 10, p.1.reg 1, p.1.pc))
    = some (8, 0x0C, 0x0C) :=
  rfl

/-- Claim C8: sign-extending an N-bit value and truncating back to N bits
is the identity for N in {5, 8, 12, 13, 16, 20, 21, 32}. -/
theorem sign_extend_trunc_roundtrip :
    ∀ bits ∈ ([5, 8, 12, 13, 16, 20, 21, 32] : List Nat), ∀ v : Nat, v < 2^bits →
      truncBits (sign_extend_u32 v bits) bits = v := by
  intro bits hmem
  fin_cases hmem <;>
    exact fun v hv => sext_trunc _ (by norm_num) (by norm_num) v hv

/-- Witness for C8: the 13-bit value 5000 (sign bit set) survives the round
trip. -/
theorem sign_extend_trunc_roundtrip_witness :
    truncBits (sign_extend_u32 5000 13) 13 = 5000 :=
  sign_extend_trunc_roundtrip 13 (by decide) 5000 (by decide)

/-- Claim C9: an in-bounds word store changes only the four bytes at its
address, a halfword store only two, a byte store only one; every other byte
is unchanged.  (The fetch operations take the memory immutably in this
model, mirroring &self in the source, so they change no byte by
construction.) -/
theorem store_frame :
    (∀ (m : Memory) (a v i : Nat), a % 4 = 0 → a ≤ MEM_SIZE - 4 →
      i ≠ a → i ≠ a+1 → i ≠ a+2 → i ≠ a+3 →
      (m.store_word a v).map (fun m2 => m2.mem i) = some (m.mem i)) ∧
    (∀ (m : Memory) (a v i : Nat), a % 2 = 0 → a ≤ MEM_SIZE - 2 →
      i ≠ a → i ≠ a+1 →
      (m.store_halfword a v).map (fun m2 => m2.mem i) = some (m.mem i)) ∧
    (∀ (m : Memory) (a v i : Nat), a < MEM_SIZE → i ≠ a →
      (m.index_mut a v).map (fun m2 => m2.mem i) = some (m.mem i)) := by
  refine ⟨fun m a v i h4 hb n0 n1 n2 n3 => ?_, fun m a v i h2 hb n0 n1 => ?_,
    fun m a v i hb n0 => ?_⟩
  · unfold Memory.store_word
    rw [if_pos h4, if_pos hb]
    simp [updByte, n0, n1, n2, n3]
  · unfold Memory.store_halfword
    rw [if_pos h2, if_pos hb]
    simp [updByte, n0, n1]
  · unfold Memory.index_mut
    rw [if_pos hb]
    simp [updByte, n0]

/-- Witness for C9: a word store at 8, a halfword store at 6 and a byte
store at 5 into zeroed memory leave byte 0 unchanged. -/
theorem store_frame_witness :
    (zeroMem.store_word 8 0xDEADBEEF).map (fun m2 => m2.mem 0) = some (zeroMem.mem 0) ∧
    (zeroMem.store_halfword 6 0xBEEF).map (fun m2 => m2.mem 0) = some (zeroMem.mem 0) ∧
    (zeroMem.index_mut 5 0xAB).map (fun m2 => m2.mem 0) = some (zeroMem.mem 0) :=
  ⟨store_frame.1 zeroMem 8 0xDEADBEEF 0 (by decide) (by decide)
      (by decide) (by decide) (by decide) (by decide),
    store_frame.2.1 zeroMem 6 0xBEEF 0 (by decide) (by decide) (by decide) (by decide),
    store_frame.2.2 zeroMem 5 0xAB 0 (by decide) (by decide)⟩

/-- Claim C10: with rd = 0 only the register write is dropped: a LW still
performs the word fetch with its alignment and bounds checks (and faults
exactly when the fetch does), and JALR and JAL still perform the target
alignment check and redirect the program counter. -/
theorem rd_zero_side_effects :
    (∀ (s : RISCV) (mem : Memory) (offset : Int) (rs1 : Nat),
      executeInstr s mem (.LW offset rs1 0)
        = (mem.fetch_word (waddSigned (s.reg rs1) offset)).map (fun _ => (s, mem))) ∧
    (∀ (s : RISCV) (mem : Memory) (offset : Int) (rs1 : Nat),
      executeInstr s mem (.JALR offset rs1 0)
        = if clearBit0 (waddSigned (s.reg rs1) offset) % 4 = 0
          then some ({ s with pc := wsub (clearBit0 (waddSigned (s.reg rs1) offset)) 4 }, mem)
          else none) ∧
    (∀ (s : RISCV) (mem : Memory) (offset : Int),
      executeInstr s mem (.JAL offset 0)
        = if offset % 2 = 0 then
            if waddSigned s.pc offset % 4 = 0
            then some ({ s with pc := wsub (waddSigned s.pc offset) 4 }, mem)
            else none
          else none) := by
  refine ⟨fun s mem offset rs1 => ?_, fun s mem offset rs1 => rfl, fun s mem offset => rfl⟩
  cases hf : Memory.fetch_word mem (waddSigned (s.reg rs1) offset) <;>
    simp [executeInstr, hf, writeback]

end RV32
